import Mathlib

/-!
Shallow embedding of the ball-in-hexagon physics core:
`src/utils/physics.ts` (Vector math, `updateBallPhysics`,
`handleWallCollision`, `createBall`) and `src/utils/collision.ts`
(`generateHexagonVertices`, `getHexagonEdges`,
`pointToLineSegmentDistance`, `checkHexagonCollision`,
`isPointInsideHexagon`, `constrainBallInsideHexagon`).
JavaScript numbers are modelled as real numbers.
-/

open Real

/-- Two-dimensional vector, `interface Vector2D {x, y}`. -/
@[ext]
structure Vector2D where
  x : ℝ
  y : ℝ

/-- Ball state, `interface Ball {position, velocity, radius}`. -/
@[ext]
structure Ball where
  position : Vector2D
  velocity : Vector2D
  radius : ℝ

namespace PHYSICS_CONSTANTS

/-- GRAVITY: 500 (pixels per second squared). -/
def GRAVITY : ℝ := 500

/-- FRICTION: 0.98. -/
def FRICTION : ℝ := 0.98

/-- BOUNCE_DAMPING: 0.85. -/
def BOUNCE_DAMPING : ℝ := 0.85

/-- MIN_VELOCITY: 0.1. -/
def MIN_VELOCITY : ℝ := 0.1

end PHYSICS_CONSTANTS

namespace Vector

/-- Vector.create. -/
def create (x y : ℝ) : Vector2D := ⟨x, y⟩

/-- Vector.add. -/
def add (a b : Vector2D) : Vector2D := ⟨a.x + b.x, a.y + b.y⟩

/-- Vector.subtract. -/
def subtract (a b : Vector2D) : Vector2D := ⟨a.x - b.x, a.y - b.y⟩

/-- Vector.multiply (scalar multiple). -/
def multiply (vector : Vector2D) (scalar : ℝ) : Vector2D :=
  ⟨vector.x * scalar, vector.y * scalar⟩

/-- Vector.dot. -/
def dot (a b : Vector2D) : ℝ := a.x * b.x + a.y * b.y

/-- Vector.magnitude, `Math.sqrt(x*x + y*y)`. -/
noncomputable def magnitude (vector : Vector2D) : ℝ :=
  Real.sqrt (vector.x * vector.x + vector.y * vector.y)

/-- Vector.normalize; returns the zero vector when the magnitude is 0. -/
noncomputable def normalize (vector : Vector2D) : Vector2D :=
  let mag := magnitude vector
  if mag = 0 then ⟨0, 0⟩ else ⟨vector.x / mag, vector.y / mag⟩

/-- Vector.rotate by an angle. -/
noncomputable def rotate (vector : Vector2D) (angle : ℝ) : Vector2D :=
  let c := Real.cos angle
  let s := Real.sin angle
  ⟨vector.x * c - vector.y * s, vector.x * s + vector.y * c⟩

/-- Vector.reflect: reflects the incident vector about the (internally
normalized) normal. -/
noncomputable def reflect (incident normal : Vector2D) : Vector2D :=
  let normalizedNormal := normalize normal
  let d := dot incident normalizedNormal
  subtract incident (multiply normalizedNormal (2 * d))

end Vector

/-- updateBallPhysics: gravity, then friction, then the small-velocity
snap to zero, then the position update. -/
noncomputable def updateBallPhysics (ball : Ball) (deltaTime : ℝ) : Ball :=
  let gravity := Vector.create 0 PHYSICS_CONSTANTS.GRAVITY
  let gravityForce := Vector.multiply gravity deltaTime
  let newVelocity₁ := Vector.add ball.velocity gravityForce
  let newVelocity₂ := Vector.multiply newVelocity₁ PHYSICS_CONSTANTS.FRICTION
  let newVelocity :=
    if Vector.magnitude newVelocity₂ < PHYSICS_CONSTANTS.MIN_VELOCITY then
      (⟨0, 0⟩ : Vector2D)
    else newVelocity₂
  let velocityDelta := Vector.multiply newVelocity deltaTime
  let newPosition := Vector.add ball.position velocityDelta
  { ball with position := newPosition, velocity := newVelocity }

/-- The wall normal computed inside handleWallCollision: perpendicular of
`wallEnd - wallStart`, normalized, flipped when its dot product with the
midpoint-to-ball vector is negative. -/
noncomputable def wallCollisionNormal (ball : Ball) (wallStart wallEnd : Vector2D) :
    Vector2D :=
  let wallVector := Vector.subtract wallEnd wallStart
  let wallNormal := Vector.normalize ⟨-wallVector.y, wallVector.x⟩
  let ballCenter := ball.position
  let wallMidpoint := Vector.multiply (Vector.add wallStart wallEnd) 0.5
  let ballDirection := Vector.subtract ballCenter wallMidpoint
  if Vector.dot wallNormal ballDirection < 0 then ⟨-wallNormal.x, -wallNormal.y⟩
  else wallNormal

/-- handleWallCollision: no-op when `distance > ball.radius`; otherwise
reflects the velocity about the wall normal oriented toward the ball,
damps it, and pushes the position out by the penetration depth. -/
noncomputable def handleWallCollision (ball : Ball) (wallStart wallEnd : Vector2D)
    (distance : ℝ) : Ball :=
  if distance > ball.radius then ball else
  let orientedNormal := wallCollisionNormal ball wallStart wallEnd
  let reflectedVelocity := Vector.reflect ball.velocity orientedNormal
  let dampedVelocity := Vector.multiply reflectedVelocity PHYSICS_CONSTANTS.BOUNCE_DAMPING
  let penetration := ball.radius - distance
  let correctionVector := Vector.multiply orientedNormal penetration
  let correctedPosition := Vector.add ball.position correctionVector
  { ball with position := correctedPosition, velocity := dampedVelocity }

/-- createBall: initial state at (x, y) with zero velocity. -/
def createBall (x y : ℝ) (radius : ℝ := 8) : Ball :=
  { position := ⟨x, y⟩, velocity := ⟨0, 0⟩, radius := radius }

/-- Line segment, `interface LineSegment {start, end}` (`end` is a Lean
keyword, so the field is `endPoint`). -/
@[ext]
structure LineSegment where
  start : Vector2D
  endPoint : Vector2D

/-- Collision report, `interface CollisionResult`. -/
structure CollisionResult where
  hasCollision : Bool
  distance : ℝ
  wallStart : Vector2D
  wallEnd : Vector2D

/-- generateHexagonVertices: the six vertices, vertex `i` at angle
`(π/3)·i + rotation` and distance `radius` from the center. -/
noncomputable def generateHexagonVertices (centerX centerY radius : ℝ)
    (rotation : ℝ := 0) : List Vector2D :=
  (List.range 6).map fun (i : ℕ) =>
    let angle := (Real.pi / 3) * (i : ℝ) + rotation
    ⟨centerX + radius * Real.cos angle, centerY + radius * Real.sin angle⟩

/-- getHexagonEdges: edge `i` joins vertex `i` to vertex `(i+1) % n`. -/
def getHexagonEdges (vertices : List Vector2D) : List LineSegment :=
  (List.range vertices.length).map fun i =>
    { start := vertices.getD i ⟨0, 0⟩,
      endPoint := vertices.getD ((i + 1) % vertices.length) ⟨0, 0⟩ }

/-- pointToLineSegmentDistance: distance from the point to the projection
onto the segment with the parameter clamped to [0,1]; distance to
`lineStart` for a zero-length segment. -/
noncomputable def pointToLineSegmentDistance (point lineStart lineEnd : Vector2D) : ℝ :=
  let A := point.x - lineStart.x
  let B := point.y - lineStart.y
  let C := lineEnd.x - lineStart.x
  let D := lineEnd.y - lineStart.y
  let d := A * C + B * D
  let lenSq := C * C + D * D
  if lenSq = 0 then Real.sqrt (A * A + B * B) else
  let param := d / lenSq
  let closestPoint : Vector2D :=
    if param < 0 then lineStart
    else if param > 1 then lineEnd
    else ⟨lineStart.x + param * C, lineStart.y + param * D⟩
  let dx := point.x - closestPoint.x
  let dy := point.y - closestPoint.y
  Real.sqrt (dx * dx + dy * dy)

/-- One step of checkHexagonCollision's minimum-tracking loop; the
accumulator is `none` before the first edge (the source's `Infinity`
initialisation, which the first real distance always beats). -/
noncomputable def closestWallFold (ballPosition : Vector2D)
    (acc : Option (ℝ × LineSegment)) (edge : LineSegment) : Option (ℝ × LineSegment) :=
  let distance := pointToLineSegmentDistance ballPosition edge.start edge.endPoint
  match acc with
  | none => some (distance, edge)
  | some (minDistance, closestWall) =>
    if distance < minDistance then some (distance, edge)
    else some (minDistance, closestWall)

/-- checkHexagonCollision: nearest of the six edges; collision iff the
minimum distance is at most the ball radius. The `none` fallback mirrors
the source's unreachable `!closestWall` branch (distance `Infinity` there;
`0` here, as ℝ has no infinity). -/
noncomputable def checkHexagonCollision (ballPosition : Vector2D) (ballRadius : ℝ)
    (hexagonCenter : Vector2D) (hexagonRadius rotation : ℝ) : CollisionResult :=
  let vertices := generateHexagonVertices hexagonCenter.x hexagonCenter.y
    hexagonRadius rotation
  let edges := getHexagonEdges vertices
  match edges.foldl (closestWallFold ballPosition) none with
  | none =>
    { hasCollision := false, distance := 0, wallStart := ⟨0, 0⟩, wallEnd := ⟨0, 0⟩ }
  | some (minDistance, closestWall) =>
    { hasCollision := decide (minDistance ≤ ballRadius), distance := minDistance,
      wallStart := closestWall.start, wallEnd := closestWall.endPoint }

/-- isPointInsideHexagon: ray casting (even-odd rule) over the edges
(vertex j is the predecessor of vertex i, wrapping at 0). -/
noncomputable def isPointInsideHexagon (point : Vector2D) (hexagonCenter : Vector2D)
    (hexagonRadius : ℝ) (rotation : ℝ := 0) : Bool :=
  let vertices := generateHexagonVertices hexagonCenter.x hexagonCenter.y
    hexagonRadius rotation
  let n := vertices.length
  (List.range n).foldl
    (fun inside i =>
      let j := (i + n - 1) % n
      let vi := vertices.getD i ⟨0, 0⟩
      let vj := vertices.getD j ⟨0, 0⟩
      if (decide (vi.y > point.y) ≠ decide (vj.y > point.y)) ∧
          point.x < (vj.x - vi.x) * (point.y - vi.y) / (vj.y - vi.y) + vi.x then
        !inside
      else inside)
    false

/-- constrainBallInsideHexagon. The source draws `Math.random() - 0.5`
twice in the ball-at-center branch; that nondeterministic pair is passed
in as `rand` (each component of `rand` models one `Math.random()` draw). -/
noncomputable def constrainBallInsideHexagon (ballPosition : Vector2D) (ballRadius : ℝ)
    (hexagonCenter : Vector2D) (hexagonRadius rotation : ℝ) (rand : Vector2D) : Vector2D :=
  let collision := checkHexagonCollision ballPosition ballRadius hexagonCenter
    hexagonRadius rotation
  if collision.hasCollision = false then ballPosition else
  let directionToCenter := Vector.subtract hexagonCenter ballPosition
  let distanceToCenter := Vector.magnitude directionToCenter
  if distanceToCenter = 0 then
    Vector.add ballPosition ⟨rand.x - 0.5, rand.y - 0.5⟩
  else
  let normalizedDirection := Vector.normalize directionToCenter
  let safeDistance := hexagonRadius - ballRadius - 10
  Vector.add hexagonCenter (Vector.multiply normalizedDirection (-safeDistance))

/-! Basic facts about the vector operations. -/

theorem magnitude_nonneg (v : Vector2D) : 0 ≤ Vector.magnitude v :=
  Real.sqrt_nonneg _

theorem magnitude_eq_zero_iff (v : Vector2D) :
    Vector.magnitude v = 0 ↔ v = ⟨0, 0⟩ := by
  unfold Vector.magnitude
  constructor
  · intro h
    have hnn : (0:ℝ) ≤ v.x * v.x + v.y * v.y :=
      add_nonneg (mul_self_nonneg _) (mul_self_nonneg _)
    have hsq := Real.sq_sqrt hnn
    rw [h] at hsq
    have h0 : v.x * v.x + v.y * v.y = 0 := by simpa using hsq.symm
    have hx : v.x = 0 := by nlinarith [mul_self_nonneg v.x, mul_self_nonneg v.y]
    have hy : v.y = 0 := by nlinarith [mul_self_nonneg v.x, mul_self_nonneg v.y]
    cases v
    simp_all
  · intro h
    subst h
    norm_num

theorem pointToLineSegmentDistance_nonneg (p a b : Vector2D) :
    0 ≤ pointToLineSegmentDistance p a b := by
  unfold pointToLineSegmentDistance
  dsimp only
  split_ifs <;> exact Real.sqrt_nonneg _

theorem normalize_unit (v : Vector2D) (h : Vector.magnitude v ≠ 0) :
    (Vector.normalize v).x * (Vector.normalize v).x +
      (Vector.normalize v).y * (Vector.normalize v).y = 1 := by
  have hm : Vector.magnitude v * Vector.magnitude v = v.x * v.x + v.y * v.y :=
    Real.mul_self_sqrt (add_nonneg (mul_self_nonneg _) (mul_self_nonneg _))
  unfold Vector.normalize
  simp only [h, if_false]
  field_simp
  linarith [hm]

theorem magnitude_sq (v : Vector2D) :
    Vector.magnitude v * Vector.magnitude v = v.x * v.x + v.y * v.y :=
  Real.mul_self_sqrt (add_nonneg (mul_self_nonneg _) (mul_self_nonneg _))

theorem magnitude_congr (a b : Vector2D)
    (h : a.x * a.x + a.y * a.y = b.x * b.x + b.y * b.y) :
    Vector.magnitude a = Vector.magnitude b := by
  unfold Vector.magnitude
  rw [h]

theorem normalize_of_mag_zero (v : Vector2D) (h : Vector.magnitude v = 0) :
    Vector.normalize v = ⟨0, 0⟩ := by
  unfold Vector.normalize
  simp [h]

theorem normalize_of_mag_ne (v : Vector2D) (h : Vector.magnitude v ≠ 0) :
    Vector.normalize v = ⟨v.x / Vector.magnitude v, v.y / Vector.magnitude v⟩ := by
  unfold Vector.normalize
  simp [h]

theorem reflect_def (v n : Vector2D) :
    Vector.reflect v n =
      ⟨v.x - (Vector.normalize n).x *
          (2 * (v.x * (Vector.normalize n).x + v.y * (Vector.normalize n).y)),
        v.y - (Vector.normalize n).y *
          (2 * (v.x * (Vector.normalize n).x + v.y * (Vector.normalize n).y))⟩ := rfl

theorem reflect_magnitude (v n : Vector2D) :
    Vector.magnitude (Vector.reflect v n) = Vector.magnitude v := by
  rcases eq_or_ne (Vector.magnitude n) 0 with h | h
  · rw [reflect_def, normalize_of_mag_zero n h]
    apply magnitude_congr
    dsimp
    ring
  · have hu := normalize_unit n h
    rw [reflect_def]
    apply magnitude_congr
    dsimp
    linear_combination
      (4 * (v.x * (Vector.normalize n).x + v.y * (Vector.normalize n).y) ^ 2) * hu

theorem magnitude_multiply (v : Vector2D) (c : ℝ) :
    Vector.magnitude (Vector.multiply v c) = |c| * Vector.magnitude v := by
  unfold Vector.magnitude Vector.multiply
  dsimp
  rw [show v.x * c * (v.x * c) + v.y * c * (v.y * c) =
      c ^ 2 * (v.x * v.x + v.y * v.y) by ring,
    Real.sqrt_mul (sq_nonneg c), Real.sqrt_sq_eq_abs]

/-- C10: when `distance > ball.radius`, handleWallCollision returns the
ball unchanged. -/
theorem C10_resolve_noop (ball : Ball) (wallStart wallEnd : Vector2D)
    (distance : ℝ) (h : distance > ball.radius) :
    handleWallCollision ball wallStart wallEnd distance = ball := by
  unfold handleWallCollision
  rw [if_pos h]

/-- Witness for C10 at a concrete input: radius 1, distance 5. -/
theorem C10_resolve_noop_witness :
    handleWallCollision (createBall 0 0 1) ⟨0, 0⟩ ⟨1, 0⟩ 5 = createBall 0 0 1 :=
  C10_resolve_noop (createBall 0 0 1) ⟨0, 0⟩ ⟨1, 0⟩ 5 (by norm_num [createBall])

/-- C5: on every colliding call (`distance ≤ ball.radius`), the oriented
normal used by handleWallCollision has nonnegative dot product with the
vector from the wall midpoint to the ball center. -/
theorem C5_normal_orientation (ball : Ball) (wallStart wallEnd : Vector2D)
    (distance : ℝ) (h : distance ≤ ball.radius) :
    0 ≤ Vector.dot (wallCollisionNormal ball wallStart wallEnd)
      (Vector.subtract ball.position
        (Vector.multiply (Vector.add wallStart wallEnd) 0.5)) := by
  unfold wallCollisionNormal
  dsimp only
  split_ifs with hfl
  · unfold Vector.dot at hfl ⊢
    dsimp at hfl ⊢
    linarith
  · exact not_lt.mp hfl

/-- Witness for C5: ball above a horizontal wall, distance 0 ≤ radius 1. -/
theorem C5_normal_orientation_witness :
    0 ≤ Vector.dot (wallCollisionNormal (createBall 0 1 1) ⟨-1, 0⟩ ⟨1, 0⟩)
      (Vector.subtract (createBall 0 1 1).position
        (Vector.multiply (Vector.add ⟨-1, 0⟩ ⟨1, 0⟩) 0.5)) :=
  C5_normal_orientation (createBall 0 1 1) ⟨-1, 0⟩ ⟨1, 0⟩ 0 (by norm_num [createBall])

/-- C4: on every colliding call, the returned velocity is no larger in
magnitude than the incoming velocity (reflection preserves the magnitude,
damping scales it by 0.85). -/
theorem C4_resolve_energy_nonincrease (ball : Ball) (wallStart wallEnd : Vector2D)
    (distance : ℝ) (h : distance ≤ ball.radius) :
    Vector.magnitude (handleWallCollision ball wallStart wallEnd distance).velocity ≤
      Vector.magnitude ball.velocity := by
  unfold handleWallCollision
  rw [if_neg (not_lt.mpr h)]
  dsimp only
  rw [magnitude_multiply, reflect_magnitude]
  have h1 : |PHYSICS_CONSTANTS.BOUNCE_DAMPING| ≤ 1 := by
    rw [show PHYSICS_CONSTANTS.BOUNCE_DAMPING = 0.85 from rfl,
      abs_of_nonneg (by norm_num : (0:ℝ) ≤ 0.85)]
    norm_num
  nlinarith [magnitude_nonneg ball.velocity, abs_nonneg PHYSICS_CONSTANTS.BOUNCE_DAMPING]

/-- Witness for C4 at a concrete colliding input. -/
theorem C4_resolve_energy_nonincrease_witness :
    Vector.magnitude (handleWallCollision (createBall 0 1 1) ⟨-1, 0⟩ ⟨1, 0⟩ 0).velocity ≤
      Vector.magnitude (createBall 0 1 1).velocity :=
  C4_resolve_energy_nonincrease (createBall 0 1 1) ⟨-1, 0⟩ ⟨1, 0⟩ 0
    (by norm_num [createBall])

/-- C3: one physics step adds gravity (0, 500)·deltaTime to the velocity,
then multiplies by the friction constant 0.98 once (not scaled by
deltaTime), then snaps to (0,0) when the magnitude is below 0.1; the new
position is the old position plus the final velocity times deltaTime, and
the radius is unchanged. -/
theorem C3_updateBallPhysics_order (ball : Ball) (deltaTime : ℝ) :
    (updateBallPhysics ball deltaTime).velocity =
      (if Real.sqrt ((0.98 * ball.velocity.x) * (0.98 * ball.velocity.x) +
            (0.98 * (ball.velocity.y + 500 * deltaTime)) *
            (0.98 * (ball.velocity.y + 500 * deltaTime))) < 0.1 then
        (⟨0, 0⟩ : Vector2D)
      else ⟨0.98 * ball.velocity.x, 0.98 * (ball.velocity.y + 500 * deltaTime)⟩) ∧
    (updateBallPhysics ball deltaTime).position =
      ⟨ball.position.x + (updateBallPhysics ball deltaTime).velocity.x * deltaTime,
        ball.position.y + (updateBallPhysics ball deltaTime).velocity.y * deltaTime⟩ ∧
    (updateBallPhysics ball deltaTime).radius = ball.radius := by
  have hv2 : Vector.multiply
      (Vector.add ball.velocity
        (Vector.multiply (Vector.create 0 PHYSICS_CONSTANTS.GRAVITY) deltaTime))
      PHYSICS_CONSTANTS.FRICTION =
      ⟨0.98 * ball.velocity.x, 0.98 * (ball.velocity.y + 500 * deltaTime)⟩ := by
    unfold Vector.multiply Vector.add Vector.create
      PHYSICS_CONSTANTS.GRAVITY PHYSICS_CONSTANTS.FRICTION
    ext <;> dsimp <;> ring
  have hmag : ∀ a b : ℝ, Vector.magnitude ⟨a, b⟩ = Real.sqrt (a * a + b * b) :=
    fun a b => rfl
  refine ⟨?_, ?_, ?_⟩
  · show (updateBallPhysics ball deltaTime).velocity = _
    unfold updateBallPhysics
    dsimp only
    rw [hv2, hmag]
    rw [show PHYSICS_CONSTANTS.MIN_VELOCITY = 0.1 from rfl]
  · unfold updateBallPhysics
    dsimp only
    rw [hv2]
    unfold Vector.add Vector.multiply
    dsimp only
  · unfold updateBallPhysics
    dsimp only

/-- Distance from a point to an edge, as checkHexagonCollision computes it. -/
noncomputable def edgeDist (p : Vector2D) (e : LineSegment) : ℝ :=
  pointToLineSegmentDistance p e.start e.endPoint

/-- Default segment used for out-of-range list reads. -/
def dfltSeg : LineSegment := ⟨⟨0, 0⟩, ⟨0, 0⟩⟩

theorem closestWallFold_some_eq (p : Vector2D) (m : ℝ) (e hd : LineSegment) :
    closestWallFold p (some (m, e)) hd =
      if edgeDist p hd < m then some (edgeDist p hd, hd) else some (m, e) := rfl

theorem closestWallFold_none_eq (p : Vector2D) (hd : LineSegment) :
    closestWallFold p none hd = some (edgeDist p hd, hd) := rfl

theorem foldl_closestWall_some (p : Vector2D) :
    ∀ (l : List LineSegment) (m : ℝ) (e : LineSegment),
      ∃ m' e', l.foldl (closestWallFold p) (some (m, e)) = some (m', e') ∧
        ((m' = m ∧ e' = e ∧ ∀ j, j < l.length → m ≤ edgeDist p (l.getD j dfltSeg)) ∨
          ∃ i, i < l.length ∧ m' = edgeDist p (l.getD i dfltSeg) ∧
            e' = l.getD i dfltSeg ∧ m' < m ∧
            (∀ j, j < i → m' < edgeDist p (l.getD j dfltSeg)) ∧
            (∀ j, j < l.length → m' ≤ edgeDist p (l.getD j dfltSeg))) := by
  intro l
  induction l with
  | nil =>
    intro m e
    exact ⟨m, e, rfl, Or.inl ⟨rfl, rfl, by simp⟩⟩
  | cons hd tl ih =>
    intro m e
    rw [List.foldl_cons, closestWallFold_some_eq]
    by_cases hlt : edgeDist p hd < m
    · rw [if_pos hlt]
      obtain ⟨m', e', hfold, hcase⟩ := ih (edgeDist p hd) hd
      refine ⟨m', e', hfold, Or.inr ?_⟩
      rcases hcase with ⟨hm', he', hall⟩ | ⟨i, hi, hm', he', hlt', hfirst, hmin⟩
      · refine ⟨0, by simp, by simpa using hm', by simpa using he', ?_, ?_, ?_⟩
        · rw [hm']; exact hlt
        · intro j hj; omega
        · intro j hj
          cases j with
          | zero => simp [hm']
          | succ j =>
            rw [List.getD_cons_succ]
            rw [hm']
            exact hall j (by simp at hj; omega)
      · refine ⟨i + 1, by simp; omega, by simpa [List.getD_cons_succ] using hm',
          by simpa [List.getD_cons_succ] using he', lt_trans hlt' hlt, ?_, ?_⟩
        · intro j hj
          cases j with
          | zero => simpa using hlt'
          | succ j =>
            rw [List.getD_cons_succ]
            exact hfirst j (by omega)
        · intro j hj
          cases j with
          | zero => simpa using le_of_lt hlt'
          | succ j =>
            rw [List.getD_cons_succ]
            exact hmin j (by simp at hj; omega)
    · rw [if_neg hlt]
      obtain ⟨m', e', hfold, hcase⟩ := ih m e
      refine ⟨m', e', hfold, ?_⟩
      rcases hcase with ⟨hm', he', hall⟩ | ⟨i, hi, hm', he', hlt', hfirst, hmin⟩
      · refine Or.inl ⟨hm', he', ?_⟩
        intro j hj
        cases j with
        | zero => simpa using not_lt.mp hlt
        | succ j =>
          rw [List.getD_cons_succ]
          exact hall j (by simp at hj; omega)
      · refine Or.inr ⟨i + 1, by simp; omega, by simpa [List.getD_cons_succ] using hm',
          by simpa [List.getD_cons_succ] using he', hlt', ?_, ?_⟩
        · intro j hj
          cases j with
          | zero => simpa using lt_of_lt_of_le hlt' (not_lt.mp hlt)
          | succ j =>
            rw [List.getD_cons_succ]
            exact hfirst j (by omega)
        · intro j hj
          cases j with
          | zero => simpa using le_of_lt (lt_of_lt_of_le hlt' (not_lt.mp hlt))
          | succ j =>
            rw [List.getD_cons_succ]
            exact hmin j (by simp at hj; omega)

theorem foldl_closestWall_first_min (p : Vector2D) (hd : LineSegment)
    (tl : List LineSegment) :
    ∃ m' e', (hd :: tl).foldl (closestWallFold p) none = some (m', e') ∧
      ∃ i, i < (hd :: tl).length ∧ m' = edgeDist p ((hd :: tl).getD i dfltSeg) ∧
        e' = (hd :: tl).getD i dfltSeg ∧
        (∀ j, j < i → m' < edgeDist p ((hd :: tl).getD j dfltSeg)) ∧
        (∀ j, j < (hd :: tl).length → m' ≤ edgeDist p ((hd :: tl).getD j dfltSeg)) := by
  rw [List.foldl_cons, closestWallFold_none_eq]
  obtain ⟨m', e', hfold, hcase⟩ := foldl_closestWall_some p tl (edgeDist p hd) hd
  refine ⟨m', e', hfold, ?_⟩
  rcases hcase with ⟨hm', he', hall⟩ | ⟨i, hi, hm', he', hlt', hfirst, hmin⟩
  · refine ⟨0, by simp, by simpa using hm', by simpa using he', ?_, ?_⟩
    · intro j hj; omega
    · intro j hj
      cases j with
      | zero => simp [hm']
      | succ j =>
        rw [List.getD_cons_succ]
        rw [hm']
        exact hall j (by simp at hj; omega)
  · refine ⟨i + 1, by simp; omega, by simpa [List.getD_cons_succ] using hm',
      by simpa [List.getD_cons_succ] using he', ?_, ?_⟩
    · intro j hj
      cases j with
      | zero => simpa using hlt'
      | succ j =>
        rw [List.getD_cons_succ]
        exact hfirst j (by omega)
    · intro j hj
      cases j with
      | zero => simpa using le_of_lt hlt'
      | succ j =>
        rw [List.getD_cons_succ]
        exact hmin j (by simp at hj; omega)

theorem hexVertices_length (cx cy r rot : ℝ) :
    (generateHexagonVertices cx cy r rot).length = 6 := by
  unfold generateHexagonVertices
  rw [List.length_map, List.length_range]

theorem hexEdges_length (cx cy r rot : ℝ) :
    (getHexagonEdges (generateHexagonVertices cx cy r rot)).length = 6 := by
  unfold getHexagonEdges
  rw [List.length_map, List.length_range, hexVertices_length]

theorem checkHexagonCollision_characterization (ballPos : Vector2D) (ballRadius : ℝ)
    (hexCenter : Vector2D) (hexRadius rotation : ℝ) :
    let res := checkHexagonCollision ballPos ballRadius hexCenter hexRadius rotation
    let edges := getHexagonEdges
      (generateHexagonVertices hexCenter.x hexCenter.y hexRadius rotation)
    ∃ i, i < 6 ∧
      res.distance = edgeDist ballPos (edges.getD i dfltSeg) ∧
      res.wallStart = (edges.getD i dfltSeg).start ∧
      res.wallEnd = (edges.getD i dfltSeg).endPoint ∧
      (∀ j, j < i → res.distance < edgeDist ballPos (edges.getD j dfltSeg)) ∧
      (∀ j, j < 6 → res.distance ≤ edgeDist ballPos (edges.getD j dfltSeg)) ∧
      (res.hasCollision = true ↔ res.distance ≤ ballRadius) := by
  dsimp only
  have hlen := hexEdges_length hexCenter.x hexCenter.y hexRadius rotation
  obtain ⟨hd, tl, heq⟩ : ∃ hd tl,
      getHexagonEdges
        (generateHexagonVertices hexCenter.x hexCenter.y hexRadius rotation) =
        hd :: tl := by
    cases h : getHexagonEdges
        (generateHexagonVertices hexCenter.x hexCenter.y hexRadius rotation) with
    | nil => rw [h] at hlen; simp at hlen
    | cons a l => exact ⟨a, l, rfl⟩
  rw [heq] at hlen ⊢
  obtain ⟨m', e', hfold, i, hi, hm', he', hfirst, hmin⟩ :=
    foldl_closestWall_first_min ballPos hd tl
  unfold checkHexagonCollision
  dsimp only
  rw [heq, hfold]
  dsimp only
  refine ⟨i, by omega, hm', by rw [he'], by rw [he'], ?_, ?_, ?_⟩
  · intro j hj
    exact hfirst j hj
  · intro j hj
    exact hmin j (by omega)
  · exact decide_eq_true_iff

/-- C2: checkHexagonCollision returns the minimum point-to-segment
distance over the six edges, the endpoints of the first edge (in vertex
order) achieving it, and reports a collision iff that minimum is at most
the ball radius. -/
theorem C2_checkHexagonCollision_spec (ballPos : Vector2D) (ballRadius : ℝ)
    (hexCenter : Vector2D) (hexRadius rotation : ℝ) :
    let res := checkHexagonCollision ballPos ballRadius hexCenter hexRadius rotation
    let edges := getHexagonEdges
      (generateHexagonVertices hexCenter.x hexCenter.y hexRadius rotation)
    ∃ i, i < 6 ∧
      res.distance = edgeDist ballPos (edges.getD i dfltSeg) ∧
      res.wallStart = (edges.getD i dfltSeg).start ∧
      res.wallEnd = (edges.getD i dfltSeg).endPoint ∧
      (∀ j, j < i → res.distance < edgeDist ballPos (edges.getD j dfltSeg)) ∧
      (∀ j, j < 6 → res.distance ≤ edgeDist ballPos (edges.getD j dfltSeg)) ∧
      (res.hasCollision = true ↔ res.distance ≤ ballRadius) :=
  checkHexagonCollision_characterization ballPos ballRadius hexCenter hexRadius rotation

/-- C7: checkHexagonCollision never tests containment; whenever every
edge is farther than the ball radius, no collision is reported, whether
or not the position is inside the hexagon. -/
theorem C7_no_containment_test (ballPos : Vector2D) (ballRadius : ℝ)
    (hexCenter : Vector2D) (hexRadius rotation : ℝ)
    (h : ∀ j, j < 6 → ballRadius < edgeDist ballPos
      ((getHexagonEdges
        (generateHexagonVertices hexCenter.x hexCenter.y hexRadius rotation)).getD
        j dfltSeg)) :
    (checkHexagonCollision ballPos ballRadius hexCenter hexRadius rotation).hasCollision
      = false := by
  obtain ⟨i, hi, hdist, -, -, -, -, hiff⟩ :=
    checkHexagonCollision_characterization ballPos ballRadius hexCenter hexRadius rotation
  have hgt : ¬ (checkHexagonCollision ballPos ballRadius hexCenter hexRadius
      rotation).distance ≤ ballRadius := by
    rw [hdist]
    exact not_le.mpr (h i hi)
  rcases Bool.eq_false_or_eq_true (checkHexagonCollision ballPos ballRadius hexCenter
      hexRadius rotation).hasCollision with hb | hb
  · exact absurd (hiff.mp hb) hgt
  · exact hb

theorem hexVertices_eval (R : ℝ) : generateHexagonVertices 0 0 R 0 =
    [⟨R, 0⟩, ⟨R / 2, R * (Real.sqrt 3 / 2)⟩, ⟨-(R / 2), R * (Real.sqrt 3 / 2)⟩,
      ⟨-R, 0⟩, ⟨-(R / 2), -(R * (Real.sqrt 3 / 2))⟩, ⟨R / 2, -(R * (Real.sqrt 3 / 2))⟩] := by
  unfold generateHexagonVertices
  have h2 : (Real.pi / 3) * (2 : ℝ) = Real.pi - Real.pi / 3 := by ring
  have h3 : (Real.pi / 3) * (3 : ℝ) = Real.pi := by ring
  have h4 : (Real.pi / 3) * (4 : ℝ) = Real.pi / 3 + Real.pi := by ring
  have h5 : (Real.pi / 3) * (5 : ℝ) = 2 * Real.pi - Real.pi / 3 := by ring
  simp [List.range_succ, h2, h3, h4, h5, Real.cos_pi_sub, Real.sin_pi_sub,
    Real.cos_add_pi, Real.sin_add_pi, Real.cos_two_pi_sub, Real.sin_two_pi_sub,
    Real.cos_pi_div_three, Real.sin_pi_div_three]
  norm_num
  ring

theorem getHexagonEdges_six (a b c d e f : Vector2D) :
    getHexagonEdges [a, b, c, d, e, f] =
      [⟨a, b⟩, ⟨b, c⟩, ⟨c, d⟩, ⟨d, e⟩, ⟨e, f⟩, ⟨f, a⟩] := by
  unfold getHexagonEdges
  simp [List.range_succ]

theorem ptsd_of_degenerate (p a b : Vector2D)
    (hlen : (b.x - a.x) * (b.x - a.x) + (b.y - a.y) * (b.y - a.y) = 0) :
    pointToLineSegmentDistance p a b =
      Real.sqrt ((p.x - a.x) * (p.x - a.x) + (p.y - a.y) * (p.y - a.y)) := by
  unfold pointToLineSegmentDistance
  dsimp only
  rw [if_pos hlen]

theorem ptsd_of_dot_neg (p a b : Vector2D)
    (hlen : (b.x - a.x) * (b.x - a.x) + (b.y - a.y) * (b.y - a.y) ≠ 0)
    (hdot : (p.x - a.x) * (b.x - a.x) + (p.y - a.y) * (b.y - a.y) < 0) :
    pointToLineSegmentDistance p a b =
      Real.sqrt ((p.x - a.x) * (p.x - a.x) + (p.y - a.y) * (p.y - a.y)) := by
  have hpos : 0 < (b.x - a.x) * (b.x - a.x) + (b.y - a.y) * (b.y - a.y) :=
    lt_of_le_of_ne (add_nonneg (mul_self_nonneg _) (mul_self_nonneg _)) (Ne.symm hlen)
  unfold pointToLineSegmentDistance
  dsimp only
  rw [if_neg hlen, if_pos (div_neg_of_neg_of_pos hdot hpos)]

theorem ptsd_of_dot_gt (p a b : Vector2D)
    (hlen : (b.x - a.x) * (b.x - a.x) + (b.y - a.y) * (b.y - a.y) ≠ 0)
    (hdot : (b.x - a.x) * (b.x - a.x) + (b.y - a.y) * (b.y - a.y) <
      (p.x - a.x) * (b.x - a.x) + (p.y - a.y) * (b.y - a.y)) :
    pointToLineSegmentDistance p a b =
      Real.sqrt ((p.x - b.x) * (p.x - b.x) + (p.y - b.y) * (p.y - b.y)) := by
  have hpos : 0 < (b.x - a.x) * (b.x - a.x) + (b.y - a.y) * (b.y - a.y) :=
    lt_of_le_of_ne (add_nonneg (mul_self_nonneg _) (mul_self_nonneg _)) (Ne.symm hlen)
  have hgt : 1 < ((p.x - a.x) * (b.x - a.x) + (p.y - a.y) * (b.y - a.y)) /
      ((b.x - a.x) * (b.x - a.x) + (b.y - a.y) * (b.y - a.y)) :=
    (one_lt_div hpos).mpr hdot
  unfold pointToLineSegmentDistance
  dsimp only
  rw [if_neg hlen, if_neg (not_lt.mpr (le_of_lt (lt_trans one_pos hgt))),
    if_pos hgt]

theorem ptsd_of_param_mid (p a b : Vector2D)
    (hlen : (b.x - a.x) * (b.x - a.x) + (b.y - a.y) * (b.y - a.y) ≠ 0)
    (h0 : 0 ≤ (p.x - a.x) * (b.x - a.x) + (p.y - a.y) * (b.y - a.y))
    (h1 : (p.x - a.x) * (b.x - a.x) + (p.y - a.y) * (b.y - a.y) ≤
      (b.x - a.x) * (b.x - a.x) + (b.y - a.y) * (b.y - a.y)) :
    pointToLineSegmentDistance p a b =
      Real.sqrt
        ((p.x - (a.x + ((p.x - a.x) * (b.x - a.x) + (p.y - a.y) * (b.y - a.y)) /
            ((b.x - a.x) * (b.x - a.x) + (b.y - a.y) * (b.y - a.y)) * (b.x - a.x))) *
          (p.x - (a.x + ((p.x - a.x) * (b.x - a.x) + (p.y - a.y) * (b.y - a.y)) /
            ((b.x - a.x) * (b.x - a.x) + (b.y - a.y) * (b.y - a.y)) * (b.x - a.x))) +
          (p.y - (a.y + ((p.x - a.x) * (b.x - a.x) + (p.y - a.y) * (b.y - a.y)) /
            ((b.x - a.x) * (b.x - a.x) + (b.y - a.y) * (b.y - a.y)) * (b.y - a.y))) *
          (p.y - (a.y + ((p.x - a.x) * (b.x - a.x) + (p.y - a.y) * (b.y - a.y)) /
            ((b.x - a.x) * (b.x - a.x) + (b.y - a.y) * (b.y - a.y)) * (b.y - a.y)))) := by
  have hpos : 0 < (b.x - a.x) * (b.x - a.x) + (b.y - a.y) * (b.y - a.y) :=
    lt_of_le_of_ne (add_nonneg (mul_self_nonneg _) (mul_self_nonneg _)) (Ne.symm hlen)
  unfold pointToLineSegmentDistance
  dsimp only
  rw [if_neg hlen, if_neg (not_lt.mpr (div_nonneg h0 hpos.le)),
    if_neg (not_lt.mpr ((div_le_one hpos).mpr h1))]

theorem far_point_edges (j : ℕ) (hj : j < 6) :
    (1 : ℝ) < edgeDist ⟨100, 0⟩
      ((getHexagonEdges (generateHexagonVertices 0 0 5 0)).getD j dfltSeg) := by
  have hs3 : Real.sqrt 3 * Real.sqrt 3 = 3 := Real.mul_self_sqrt (by norm_num)
  rw [hexVertices_eval, getHexagonEdges_six]
  interval_cases j <;>
    simp only [List.getD_cons_zero, List.getD_cons_succ] <;> unfold edgeDist
  · rw [ptsd_of_dot_neg _ _ _ (ne_of_gt (by dsimp only; nlinarith [hs3]))
      (by dsimp only; nlinarith [hs3])]
    dsimp only
    rw [Real.lt_sqrt (by norm_num)]
    nlinarith [hs3]
  · rw [ptsd_of_dot_neg _ _ _ (ne_of_gt (by dsimp only; nlinarith [hs3]))
      (by dsimp only; nlinarith [hs3])]
    dsimp only
    rw [Real.lt_sqrt (by norm_num)]
    nlinarith [hs3]
  · rw [ptsd_of_dot_neg _ _ _ (ne_of_gt (by dsimp only; nlinarith [hs3]))
      (by dsimp only; nlinarith [hs3])]
    dsimp only
    rw [Real.lt_sqrt (by norm_num)]
    nlinarith [hs3]
  · rw [ptsd_of_dot_gt _ _ _ (ne_of_gt (by dsimp only; nlinarith [hs3]))
      (by dsimp only; nlinarith [hs3])]
    dsimp only
    rw [Real.lt_sqrt (by norm_num)]
    nlinarith [hs3]
  · rw [ptsd_of_dot_gt _ _ _ (ne_of_gt (by dsimp only; nlinarith [hs3]))
      (by dsimp only; nlinarith [hs3])]
    dsimp only
    rw [Real.lt_sqrt (by norm_num)]
    nlinarith [hs3]
  · rw [ptsd_of_dot_gt _ _ _ (ne_of_gt (by dsimp only; nlinarith [hs3]))
      (by dsimp only; nlinarith [hs3])]
    dsimp only
    rw [Real.lt_sqrt (by norm_num)]
    nlinarith [hs3]
theorem outside_far_point :
    isPointInsideHexagon ⟨100, 0⟩ ⟨0, 0⟩ 5 0 = false := by
  unfold isPointInsideHexagon
  dsimp only
  rw [hexVertices_eval]
  simp only [List.length_cons, List.length_nil, List.range_succ, List.range_zero,
    List.foldl_cons, List.foldl_nil, List.getD_cons_zero, List.getD_cons_succ,
    List.nil_append, List.cons_append, List.foldl_append]
  norm_num
  intro h
  exfalso
  nlinarith [Real.sqrt_nonneg 3]

/-- Witness for C7: the point (100, 0) lies strictly outside the hexagon
of radius 5 at the origin (ray casting returns false), every edge is
farther than the ball radius 1, and no collision is reported. -/
theorem C7_no_containment_test_witness :
    isPointInsideHexagon ⟨100, 0⟩ ⟨0, 0⟩ 5 0 = false ∧
    (checkHexagonCollision ⟨100, 0⟩ 1 ⟨0, 0⟩ 5 0).hasCollision = false :=
  ⟨outside_far_point,
    C7_no_containment_test ⟨100, 0⟩ 1 ⟨0, 0⟩ 5 0 fun j hj => far_point_edges j hj⟩
theorem hexVertices_explicit (cx cy r rot : ℝ) :
    generateHexagonVertices cx cy r rot =
      [⟨cx + r * Real.cos rot, cy + r * Real.sin rot⟩,
        ⟨cx + r * Real.cos (Real.pi / 3 + rot), cy + r * Real.sin (Real.pi / 3 + rot)⟩,
        ⟨cx + r * Real.cos (Real.pi / 3 * 2 + rot), cy + r * Real.sin (Real.pi / 3 * 2 + rot)⟩,
        ⟨cx + r * Real.cos (Real.pi / 3 * 3 + rot), cy + r * Real.sin (Real.pi / 3 * 3 + rot)⟩,
        ⟨cx + r * Real.cos (Real.pi / 3 * 4 + rot), cy + r * Real.sin (Real.pi / 3 * 4 + rot)⟩,
        ⟨cx + r * Real.cos (Real.pi / 3 * 5 + rot), cy + r * Real.sin (Real.pi / 3 * 5 + rot)⟩] := by
  unfold generateHexagonVertices
  simp [List.range_succ]

theorem magnitude_cos_sin (r θ : ℝ) (h : 0 ≤ r) :
    Vector.magnitude ⟨r * Real.cos θ, r * Real.sin θ⟩ = r := by
  unfold Vector.magnitude
  dsimp only
  rw [show r * Real.cos θ * (r * Real.cos θ) + r * Real.sin θ * (r * Real.sin θ) =
      r ^ 2 * (Real.cos θ ^ 2 + Real.sin θ ^ 2) by ring,
    Real.cos_sq_add_sin_sq, mul_one, Real.sqrt_sq h]

/-- C9: generateHexagonVertices returns exactly six points; the i-th lies
at angle `i·(π/3) + rotation` around the center (its coordinates are
`center + radius·(cos, sin)` of that angle) and at distance `radius` from
the center, so consecutive vertices are 60 degrees apart. -/
theorem C9_generateVertices (cx cy radius rot : ℝ) (h : 0 ≤ radius) :
    (generateHexagonVertices cx cy radius rot).length = 6 ∧
    ∀ i : ℕ, i < 6 →
      (generateHexagonVertices cx cy radius rot).getD i ⟨0, 0⟩ =
        ⟨cx + radius * Real.cos ((Real.pi / 3) * i + rot),
          cy + radius * Real.sin ((Real.pi / 3) * i + rot)⟩ ∧
      Vector.magnitude
        (Vector.subtract ((generateHexagonVertices cx cy radius rot).getD i ⟨0, 0⟩)
          ⟨cx, cy⟩) = radius := by
  refine ⟨hexVertices_length cx cy radius rot, ?_⟩
  intro i hi
  rw [hexVertices_explicit]
  interval_cases i <;>
    simp only [List.getD_cons_zero, List.getD_cons_succ] <;>
    constructor
  · norm_num
  · unfold Vector.subtract
    dsimp only
    rw [show cx + radius * Real.cos rot - cx = radius * Real.cos rot by ring,
      show cy + radius * Real.sin rot - cy = radius * Real.sin rot by ring]
    exact magnitude_cos_sin radius rot h
  · norm_num
  · unfold Vector.subtract
    dsimp only
    rw [show cx + radius * Real.cos (Real.pi / 3 + rot) - cx =
        radius * Real.cos (Real.pi / 3 + rot) by ring,
      show cy + radius * Real.sin (Real.pi / 3 + rot) - cy =
        radius * Real.sin (Real.pi / 3 + rot) by ring]
    exact magnitude_cos_sin radius _ h
  · norm_num
  · unfold Vector.subtract
    dsimp only
    rw [show cx + radius * Real.cos (Real.pi / 3 * 2 + rot) - cx =
        radius * Real.cos (Real.pi / 3 * 2 + rot) by ring,
      show cy + radius * Real.sin (Real.pi / 3 * 2 + rot) - cy =
        radius * Real.sin (Real.pi / 3 * 2 + rot) by ring]
    exact magnitude_cos_sin radius _ h
  · norm_num
  · unfold Vector.subtract
    dsimp only
    rw [show cx + radius * Real.cos (Real.pi / 3 * 3 + rot) - cx =
        radius * Real.cos (Real.pi / 3 * 3 + rot) by ring,
      show cy + radius * Real.sin (Real.pi / 3 * 3 + rot) - cy =
        radius * Real.sin (Real.pi / 3 * 3 + rot) by ring]
    exact magnitude_cos_sin radius _ h
  · norm_num
  · unfold Vector.subtract
    dsimp only
    rw [show cx + radius * Real.cos (Real.pi / 3 * 4 + rot) - cx =
        radius * Real.cos (Real.pi / 3 * 4 + rot) by ring,
      show cy + radius * Real.sin (Real.pi / 3 * 4 + rot) - cy =
        radius * Real.sin (Real.pi / 3 * 4 + rot) by ring]
    exact magnitude_cos_sin radius _ h
  · norm_num
  · unfold Vector.subtract
    dsimp only
    rw [show cx + radius * Real.cos (Real.pi / 3 * 5 + rot) - cx =
        radius * Real.cos (Real.pi / 3 * 5 + rot) by ring,
      show cy + radius * Real.sin (Real.pi / 3 * 5 + rot) - cy =
        radius * Real.sin (Real.pi / 3 * 5 + rot) by ring]
    exact magnitude_cos_sin radius _ h

/-- Witness for C9 at radius 1 (nonnegative), rotation 0. -/
theorem C9_generateVertices_witness :
    (0 : ℝ) ≤ 1 ∧
    ((generateHexagonVertices 0 0 1 0).length = 6 ∧
      ∀ i : ℕ, i < 6 →
        (generateHexagonVertices 0 0 1 0).getD i ⟨0, 0⟩ =
          ⟨0 + 1 * Real.cos ((Real.pi / 3) * i + 0),
            0 + 1 * Real.sin ((Real.pi / 3) * i + 0)⟩ ∧
        Vector.magnitude
          (Vector.subtract ((generateHexagonVertices 0 0 1 0).getD i ⟨0, 0⟩)
            ⟨0, 0⟩) = 1) :=
  ⟨by norm_num, C9_generateVertices 0 0 1 0 (by norm_num)⟩
theorem magnitude_subtract_eq (p q : Vector2D) :
    Vector.magnitude (Vector.subtract p q) =
      Real.sqrt ((p.x - q.x) * (p.x - q.x) + (p.y - q.y) * (p.y - q.y)) := rfl

theorem ptsd_le_dist (p a b : Vector2D) (t : ℝ) (ht0 : 0 ≤ t) (ht1 : t ≤ 1) :
    pointToLineSegmentDistance p a b ≤
      Vector.magnitude
        (Vector.subtract p ⟨a.x + t * (b.x - a.x), a.y + t * (b.y - a.y)⟩) := by
  rw [magnitude_subtract_eq]
  dsimp only
  by_cases hlen : (b.x - a.x) * (b.x - a.x) + (b.y - a.y) * (b.y - a.y) = 0
  · have hC : b.x - a.x = 0 := by
      nlinarith [mul_self_nonneg (b.x - a.x), mul_self_nonneg (b.y - a.y)]
    have hD : b.y - a.y = 0 := by
      nlinarith [mul_self_nonneg (b.x - a.x), mul_self_nonneg (b.y - a.y)]
    rw [ptsd_of_degenerate p a b hlen]
    apply le_of_eq
    congr 1
    linear_combination (2 * t * (p.x - a.x) - t * t * (b.x - a.x)) * hC +
      (2 * t * (p.y - a.y) - t * t * (b.y - a.y)) * hD
  · have hpos : 0 < (b.x - a.x) * (b.x - a.x) + (b.y - a.y) * (b.y - a.y) :=
      lt_of_le_of_ne (add_nonneg (mul_self_nonneg _) (mul_self_nonneg _)) (Ne.symm hlen)
    by_cases hneg : (p.x - a.x) * (b.x - a.x) + (p.y - a.y) * (b.y - a.y) < 0
    · rw [ptsd_of_dot_neg p a b hlen hneg]
      apply Real.sqrt_le_sqrt
      nlinarith [mul_nonneg ht0 (neg_nonneg.mpr (le_of_lt hneg)),
        mul_nonneg (mul_nonneg ht0 ht0) hpos.le]
    · by_cases hgt : (b.x - a.x) * (b.x - a.x) + (b.y - a.y) * (b.y - a.y) <
          (p.x - a.x) * (b.x - a.x) + (p.y - a.y) * (b.y - a.y)
      · rw [ptsd_of_dot_gt p a b hlen hgt]
        apply Real.sqrt_le_sqrt
        have h1 : (0:ℝ) ≤ 1 - t := by linarith
        have h2 : (0:ℝ) ≤ 2 * ((p.x - a.x) * (b.x - a.x) + (p.y - a.y) * (b.y - a.y)) -
            (t + 1) * ((b.x - a.x) * (b.x - a.x) + (b.y - a.y) * (b.y - a.y)) := by
          nlinarith [mul_nonneg (sub_nonneg.mpr ht1) hpos.le]
        nlinarith [mul_nonneg h1 h2]
      · have h0 : 0 ≤ (p.x - a.x) * (b.x - a.x) + (p.y - a.y) * (b.y - a.y) :=
          not_lt.mp hneg
        have h1 : (p.x - a.x) * (b.x - a.x) + (p.y - a.y) * (b.y - a.y) ≤
            (b.x - a.x) * (b.x - a.x) + (b.y - a.y) * (b.y - a.y) := not_lt.mp hgt
        rw [ptsd_of_param_mid p a b hlen h0 h1]
        apply Real.sqrt_le_sqrt
        have hu : ((p.x - a.x) * (b.x - a.x) + (p.y - a.y) * (b.y - a.y)) /
            ((b.x - a.x) * (b.x - a.x) + (b.y - a.y) * (b.y - a.y)) *
            ((b.x - a.x) * (b.x - a.x) + (b.y - a.y) * (b.y - a.y)) =
            (p.x - a.x) * (b.x - a.x) + (p.y - a.y) * (b.y - a.y) :=
          div_mul_cancel₀ _ hlen
        have key : (p.x - (a.x + t * (b.x - a.x))) * (p.x - (a.x + t * (b.x - a.x))) +
            (p.y - (a.y + t * (b.y - a.y))) * (p.y - (a.y + t * (b.y - a.y))) -
            ((p.x - (a.x + ((p.x - a.x) * (b.x - a.x) + (p.y - a.y) * (b.y - a.y)) /
                ((b.x - a.x) * (b.x - a.x) + (b.y - a.y) * (b.y - a.y)) * (b.x - a.x))) *
              (p.x - (a.x + ((p.x - a.x) * (b.x - a.x) + (p.y - a.y) * (b.y - a.y)) /
                ((b.x - a.x) * (b.x - a.x) + (b.y - a.y) * (b.y - a.y)) * (b.x - a.x))) +
              (p.y - (a.y + ((p.x - a.x) * (b.x - a.x) + (p.y - a.y) * (b.y - a.y)) /
                ((b.x - a.x) * (b.x - a.x) + (b.y - a.y) * (b.y - a.y)) * (b.y - a.y))) *
              (p.y - (a.y + ((p.x - a.x) * (b.x - a.x) + (p.y - a.y) * (b.y - a.y)) /
                ((b.x - a.x) * (b.x - a.x) + (b.y - a.y) * (b.y - a.y)) * (b.y - a.y)))) =
            ((b.x - a.x) * (b.x - a.x) + (b.y - a.y) * (b.y - a.y)) *
              (t - ((p.x - a.x) * (b.x - a.x) + (p.y - a.y) * (b.y - a.y)) /
                ((b.x - a.x) * (b.x - a.x) + (b.y - a.y) * (b.y - a.y))) ^ 2 := by
          linear_combination (2 * t - 2 * (((p.x - a.x) * (b.x - a.x) +
            (p.y - a.y) * (b.y - a.y)) /
            ((b.x - a.x) * (b.x - a.x) + (b.y - a.y) * (b.y - a.y)))) * hu
        nlinarith [key, mul_nonneg hpos.le
          (sq_nonneg (t - ((p.x - a.x) * (b.x - a.x) + (p.y - a.y) * (b.y - a.y)) /
            ((b.x - a.x) * (b.x - a.x) + (b.y - a.y) * (b.y - a.y))))]

theorem ptsd_achieved (p a b : Vector2D) :
    ∃ t : ℝ, 0 ≤ t ∧ t ≤ 1 ∧
      pointToLineSegmentDistance p a b =
        Vector.magnitude
          (Vector.subtract p ⟨a.x + t * (b.x - a.x), a.y + t * (b.y - a.y)⟩) := by
  by_cases hlen : (b.x - a.x) * (b.x - a.x) + (b.y - a.y) * (b.y - a.y) = 0
  · refine ⟨0, le_refl 0, by norm_num, ?_⟩
    rw [ptsd_of_degenerate p a b hlen, magnitude_subtract_eq]
    dsimp only
    congr 1
    ring
  · have hpos : 0 < (b.x - a.x) * (b.x - a.x) + (b.y - a.y) * (b.y - a.y) :=
      lt_of_le_of_ne (add_nonneg (mul_self_nonneg _) (mul_self_nonneg _)) (Ne.symm hlen)
    by_cases hneg : (p.x - a.x) * (b.x - a.x) + (p.y - a.y) * (b.y - a.y) < 0
    · refine ⟨0, le_refl 0, by norm_num, ?_⟩
      rw [ptsd_of_dot_neg p a b hlen hneg, magnitude_subtract_eq]
      dsimp only
      congr 1
      ring
    · by_cases hgt : (b.x - a.x) * (b.x - a.x) + (b.y - a.y) * (b.y - a.y) <
          (p.x - a.x) * (b.x - a.x) + (p.y - a.y) * (b.y - a.y)
      · refine ⟨1, by norm_num, le_refl 1, ?_⟩
        rw [ptsd_of_dot_gt p a b hlen hgt, magnitude_subtract_eq]
        dsimp only
        congr 1
        ring
      · have h0 : 0 ≤ (p.x - a.x) * (b.x - a.x) + (p.y - a.y) * (b.y - a.y) :=
          not_lt.mp hneg
        have h1 : (p.x - a.x) * (b.x - a.x) + (p.y - a.y) * (b.y - a.y) ≤
            (b.x - a.x) * (b.x - a.x) + (b.y - a.y) * (b.y - a.y) := not_lt.mp hgt
        refine ⟨((p.x - a.x) * (b.x - a.x) + (p.y - a.y) * (b.y - a.y)) /
            ((b.x - a.x) * (b.x - a.x) + (b.y - a.y) * (b.y - a.y)),
          div_nonneg h0 hpos.le, (div_le_one hpos).mpr h1, ?_⟩
        rw [ptsd_of_param_mid p a b hlen h0 h1, magnitude_subtract_eq]

/-- C8: pointToLineSegmentDistance is the least distance from the point
to any point of the segment (projection clamped to [0,1]); a zero-length
segment gives the distance to its start; and the two concrete scenarios
evaluate to 0 and 10. -/
theorem C8_pointToSegmentDistance_spec (p a b : Vector2D) :
    (∀ t : ℝ, 0 ≤ t → t ≤ 1 →
      pointToLineSegmentDistance p a b ≤
        Vector.magnitude
          (Vector.subtract p ⟨a.x + t * (b.x - a.x), a.y + t * (b.y - a.y)⟩)) ∧
    (∃ t : ℝ, 0 ≤ t ∧ t ≤ 1 ∧
      pointToLineSegmentDistance p a b =
        Vector.magnitude
          (Vector.subtract p ⟨a.x + t * (b.x - a.x), a.y + t * (b.y - a.y)⟩)) ∧
    (b = a → pointToLineSegmentDistance p a b =
      Vector.magnitude (Vector.subtract p a)) ∧
    pointToLineSegmentDistance ⟨0, 0⟩ ⟨0, -5⟩ ⟨0, 5⟩ = 0 ∧
    pointToLineSegmentDistance ⟨10, 0⟩ ⟨0, -5⟩ ⟨0, 5⟩ = 10 := by
  refine ⟨fun t ht0 ht1 => ptsd_le_dist p a b t ht0 ht1, ptsd_achieved p a b, ?_, ?_, ?_⟩
  · intro hba
    subst hba
    rw [ptsd_of_degenerate p b b (by ring), magnitude_subtract_eq]
  · rw [ptsd_of_param_mid ⟨0, 0⟩ ⟨0, -5⟩ ⟨0, 5⟩ (by norm_num) (by norm_num) (by norm_num)]
    norm_num
  · rw [ptsd_of_param_mid ⟨10, 0⟩ ⟨0, -5⟩ ⟨0, 5⟩ (by norm_num) (by norm_num) (by norm_num)]
    norm_num
    rw [show (100 : ℝ) = 10 ^ 2 by norm_num, Real.sqrt_sq (by norm_num : (0:ℝ) ≤ 10)]

theorem perp_decomp (C D u v nx ny : ℝ) (hL : 0 < C * C + D * D)
    (hperpuv : u * C + v * D = 0) (hperpn : nx * C + ny * D = 0)
    (hunit : nx * nx + ny * ny = 1) (hor : 0 ≤ nx * u + ny * v) :
    u = Real.sqrt (u * u + v * v) * nx ∧ v = Real.sqrt (u * u + v * v) * ny := by
  have hcross : nx * v - ny * u = 0 := by
    by_cases hC : C = 0
    · have hD : D ≠ 0 := by
        intro hD
        rw [hC, hD] at hL
        norm_num at hL
      have h1 : (nx * v - ny * u) * D = 0 := by
        linear_combination (-u) * hperpn + nx * hperpuv + (nx * u - nx * u) * hC
      exact (mul_eq_zero.mp h1).resolve_right hD
    · have h1 : (nx * v - ny * u) * C = 0 := by
        linear_combination v * hperpn + (-ny) * hperpuv
      exact (mul_eq_zero.mp h1).resolve_right hC
  have hu : u = (nx * u + ny * v) * nx := by
    linear_combination (-u) * hunit + (-ny) * hcross
  have hv : v = (nx * u + ny * v) * ny := by
    linear_combination (-v) * hunit + nx * hcross
  have harg : u * u + v * v = (nx * u + ny * v) ^ 2 := by
    nlinarith [hu, hv, hunit]
  have hsq : Real.sqrt (u * u + v * v) = nx * u + ny * v := by
    rw [harg]
    exact Real.sqrt_sq hor
  rw [hsq]
  exact ⟨hu, hv⟩

theorem wallCollisionNormal_facts (ball : Ball) (s e : Vector2D)
    (hw : (e.x - s.x) * (e.x - s.x) + (e.y - s.y) * (e.y - s.y) ≠ 0) :
    (wallCollisionNormal ball s e).x * (e.x - s.x) +
      (wallCollisionNormal ball s e).y * (e.y - s.y) = 0 ∧
    (wallCollisionNormal ball s e).x * (wallCollisionNormal ball s e).x +
      (wallCollisionNormal ball s e).y * (wallCollisionNormal ball s e).y = 1 ∧
    0 ≤ Vector.dot (wallCollisionNormal ball s e)
      (Vector.subtract ball.position (Vector.multiply (Vector.add s e) 0.5)) := by
  have hWmag : Vector.magnitude ⟨-(e.y - s.y), e.x - s.x⟩ ≠ 0 := by
    rw [Ne, magnitude_eq_zero_iff, Vector2D.mk.injEq]
    rintro ⟨h1, h2⟩
    apply hw
    have hD : e.y - s.y = 0 := by linarith [neg_eq_zero.mp h1]
    rw [hD, h2]
    ring
  have hmg2 := magnitude_sq (⟨-(e.y - s.y), e.x - s.x⟩ : Vector2D)
  dsimp only at hmg2
  unfold wallCollisionNormal
  simp only [Vector.subtract, Vector.add, Vector.multiply, Vector.dot]
  rw [normalize_of_mag_ne ⟨-(e.y - s.y), e.x - s.x⟩ hWmag]
  dsimp only
  generalize hMdef : Vector.magnitude (⟨-(e.y - s.y), e.x - s.x⟩ : Vector2D) = M
    at hWmag hmg2 ⊢
  split_ifs with hfl <;> refine ⟨?_, ?_, ?_⟩
  · dsimp only
    field_simp
    ring
  · dsimp only
    field_simp
    linear_combination (-1) * hmg2
  · dsimp only
    linarith [hfl]
  · field_simp
    ring
  · field_simp
    linear_combination (-1) * hmg2
  · exact not_lt.mp hfl

theorem handleWallCollision_position (ball : Ball) (s e : Vector2D) (d : ℝ)
    (h : d ≤ ball.radius) :
    (handleWallCollision ball s e d).position =
      ⟨ball.position.x + (wallCollisionNormal ball s e).x * (ball.radius - d),
        ball.position.y + (wallCollisionNormal ball s e).y * (ball.radius - d)⟩ := by
  unfold handleWallCollision
  rw [if_neg (not_lt.mpr h)]
  rfl

theorem resolve_core (sx sy ex ey px py r d nx ny : ℝ)
    (hw : (ex - sx) * (ex - sx) + (ey - sy) * (ey - sy) ≠ 0)
    (hp0 : 0 ≤ (px - sx) * (ex - sx) + (py - sy) * (ey - sy))
    (hp1 : (px - sx) * (ex - sx) + (py - sy) * (ey - sy) ≤
      (ex - sx) * (ex - sx) + (ey - sy) * (ey - sy))
    (hperp : nx * (ex - sx) + ny * (ey - sy) = 0)
    (hunit : nx * nx + ny * ny = 1)
    (horient : 0 ≤ nx * (px - (sx + ex) * 0.5) + ny * (py - (sy + ey) * 0.5))
    (hd : d = pointToLineSegmentDistance ⟨px, py⟩ ⟨sx, sy⟩ ⟨ex, ey⟩)
    (hdr : d ≤ r) :
    pointToLineSegmentDistance ⟨px + nx * (r - d), py + ny * (r - d)⟩
      ⟨sx, sy⟩ ⟨ex, ey⟩ = r := by
  have hL : 0 < (ex - sx) * (ex - sx) + (ey - sy) * (ey - sy) :=
    lt_of_le_of_ne (add_nonneg (mul_self_nonneg _) (mul_self_nonneg _)) (Ne.symm hw)
  have hd0 : 0 ≤ d := hd ▸ pointToLineSegmentDistance_nonneg ⟨px, py⟩ ⟨sx, sy⟩ ⟨ex, ey⟩
  have hr0 : 0 ≤ r := le_trans hd0 hdr
  rw [ptsd_of_param_mid ⟨px, py⟩ ⟨sx, sy⟩ ⟨ex, ey⟩ hw hp0 hp1] at hd
  dsimp only at hd
  have ht : ((px - sx) * (ex - sx) + (py - sy) * (ey - sy)) /
      ((ex - sx) * (ex - sx) + (ey - sy) * (ey - sy)) *
      ((ex - sx) * (ex - sx) + (ey - sy) * (ey - sy)) =
      (px - sx) * (ex - sx) + (py - sy) * (ey - sy) :=
    div_mul_cancel₀ _ hw
  have hperpuv : (px - (sx + ((px - sx) * (ex - sx) + (py - sy) * (ey - sy)) /
        ((ex - sx) * (ex - sx) + (ey - sy) * (ey - sy)) * (ex - sx))) * (ex - sx) +
      (py - (sy + ((px - sx) * (ex - sx) + (py - sy) * (ey - sy)) /
        ((ex - sx) * (ex - sx) + (ey - sy) * (ey - sy)) * (ey - sy))) * (ey - sy) = 0 := by
    linear_combination (-1) * ht
  have horuv : 0 ≤ nx * (px - (sx + ((px - sx) * (ex - sx) + (py - sy) * (ey - sy)) /
        ((ex - sx) * (ex - sx) + (ey - sy) * (ey - sy)) * (ex - sx))) +
      ny * (py - (sy + ((px - sx) * (ex - sx) + (py - sy) * (ey - sy)) /
        ((ex - sx) * (ex - sx) + (ey - sy) * (ey - sy)) * (ey - sy))) := by
    have heq : nx * (px - (sx + ((px - sx) * (ex - sx) + (py - sy) * (ey - sy)) /
          ((ex - sx) * (ex - sx) + (ey - sy) * (ey - sy)) * (ex - sx))) +
        ny * (py - (sy + ((px - sx) * (ex - sx) + (py - sy) * (ey - sy)) /
          ((ex - sx) * (ex - sx) + (ey - sy) * (ey - sy)) * (ey - sy))) =
        nx * (px - (sx + ex) * 0.5) + ny * (py - (sy + ey) * 0.5) := by
      linear_combination (0.5 - ((px - sx) * (ex - sx) + (py - sy) * (ey - sy)) /
        ((ex - sx) * (ex - sx) + (ey - sy) * (ey - sy))) * hperp
    rw [heq]
    exact horient
  obtain ⟨hu, hv⟩ := perp_decomp (ex - sx) (ey - sy)
    (px - (sx + ((px - sx) * (ex - sx) + (py - sy) * (ey - sy)) /
      ((ex - sx) * (ex - sx) + (ey - sy) * (ey - sy)) * (ex - sx)))
    (py - (sy + ((px - sx) * (ex - sx) + (py - sy) * (ey - sy)) /
      ((ex - sx) * (ex - sx) + (ey - sy) * (ey - sy)) * (ey - sy)))
    nx ny hL hperpuv hperp hunit horuv
  rw [← hd] at hu hv
  have hq0 : 0 ≤ ((⟨px + nx * (r - d), py + ny * (r - d)⟩ : Vector2D).x - (⟨sx, sy⟩ : Vector2D).x) *
        ((⟨ex, ey⟩ : Vector2D).x - (⟨sx, sy⟩ : Vector2D).x) +
      ((⟨px + nx * (r - d), py + ny * (r - d)⟩ : Vector2D).y - (⟨sx, sy⟩ : Vector2D).y) *
        ((⟨ex, ey⟩ : Vector2D).y - (⟨sx, sy⟩ : Vector2D).y) := by
    dsimp only
    have hshift : (px + nx * (r - d) - sx) * (ex - sx) + (py + ny * (r - d) - sy) * (ey - sy) =
        (px - sx) * (ex - sx) + (py - sy) * (ey - sy) := by
      linear_combination (r - d) * hperp
    rw [hshift]
    exact hp0
  have hq1 : ((⟨px + nx * (r - d), py + ny * (r - d)⟩ : Vector2D).x - (⟨sx, sy⟩ : Vector2D).x) *
        ((⟨ex, ey⟩ : Vector2D).x - (⟨sx, sy⟩ : Vector2D).x) +
      ((⟨px + nx * (r - d), py + ny * (r - d)⟩ : Vector2D).y - (⟨sx, sy⟩ : Vector2D).y) *
        ((⟨ex, ey⟩ : Vector2D).y - (⟨sx, sy⟩ : Vector2D).y) ≤
      ((⟨ex, ey⟩ : Vector2D).x - (⟨sx, sy⟩ : Vector2D).x) *
        ((⟨ex, ey⟩ : Vector2D).x - (⟨sx, sy⟩ : Vector2D).x) +
      ((⟨ex, ey⟩ : Vector2D).y - (⟨sx, sy⟩ : Vector2D).y) *
        ((⟨ex, ey⟩ : Vector2D).y - (⟨sx, sy⟩ : Vector2D).y) := by
    dsimp only
    have hshift : (px + nx * (r - d) - sx) * (ex - sx) + (py + ny * (r - d) - sy) * (ey - sy) =
        (px - sx) * (ex - sx) + (py - sy) * (ey - sy) := by
      linear_combination (r - d) * hperp
    rw [hshift]
    exact hp1
  rw [ptsd_of_param_mid ⟨px + nx * (r - d), py + ny * (r - d)⟩ ⟨sx, sy⟩ ⟨ex, ey⟩ hw hq0 hq1]
  dsimp only
  have hdot' : (px + nx * (r - d) - sx) * (ex - sx) + (py + ny * (r - d) - sy) * (ey - sy) =
      (px - sx) * (ex - sx) + (py - sy) * (ey - sy) := by
    linear_combination (r - d) * hperp
  rw [hdot']
  have hx : px + nx * (r - d) - (sx + ((px - sx) * (ex - sx) + (py - sy) * (ey - sy)) /
      ((ex - sx) * (ex - sx) + (ey - sy) * (ey - sy)) * (ex - sx)) = r * nx := by
    linear_combination hu
  have hy : py + ny * (r - d) - (sy + ((px - sx) * (ex - sx) + (py - sy) * (ey - sy)) /
      ((ex - sx) * (ex - sx) + (ey - sy) * (ey - sy)) * (ey - sy)) = r * ny := by
    linear_combination hv
  rw [hx, hy]
  have harg : r * nx * (r * nx) + r * ny * (r * ny) = r ^ 2 := by
    linear_combination (r ^ 2) * hunit
  rw [harg, Real.sqrt_sq hr0]

/-- C1 (amended): when the wall is nondegenerate, `distance` is the true
point-to-segment distance, and the perpendicular projection of the ball
center onto the wall line falls within the segment (clamp parameter in
[0,1]), a colliding call to handleWallCollision returns a position whose
distance to the wall segment is at least the ball radius. -/
theorem C1_resolve_nonpenetration_amended (ball : Ball) (wallStart wallEnd : Vector2D)
    (distance : ℝ)
    (hw : (wallEnd.x - wallStart.x) * (wallEnd.x - wallStart.x) +
      (wallEnd.y - wallStart.y) * (wallEnd.y - wallStart.y) ≠ 0)
    (hp0 : 0 ≤ (ball.position.x - wallStart.x) * (wallEnd.x - wallStart.x) +
      (ball.position.y - wallStart.y) * (wallEnd.y - wallStart.y))
    (hp1 : (ball.position.x - wallStart.x) * (wallEnd.x - wallStart.x) +
      (ball.position.y - wallStart.y) * (wallEnd.y - wallStart.y) ≤
      (wallEnd.x - wallStart.x) * (wallEnd.x - wallStart.x) +
      (wallEnd.y - wallStart.y) * (wallEnd.y - wallStart.y))
    (hdist : distance = pointToLineSegmentDistance ball.position wallStart wallEnd)
    (hcoll : distance ≤ ball.radius) :
    ball.radius ≤ pointToLineSegmentDistance
      (handleWallCollision ball wallStart wallEnd distance).position wallStart wallEnd := by
  obtain ⟨hperp, hunit, horient⟩ := wallCollisionNormal_facts ball wallStart wallEnd hw
  rw [handleWallCollision_position ball wallStart wallEnd distance hcoll]
  have horsc : 0 ≤ (wallCollisionNormal ball wallStart wallEnd).x *
      (ball.position.x - (wallStart.x + wallEnd.x) * 0.5) +
      (wallCollisionNormal ball wallStart wallEnd).y *
      (ball.position.y - (wallStart.y + wallEnd.y) * 0.5) := by
    simpa [Vector.dot, Vector.subtract, Vector.multiply, Vector.add] using horient
  have hcore := resolve_core wallStart.x wallStart.y wallEnd.x wallEnd.y
    ball.position.x ball.position.y ball.radius distance
    (wallCollisionNormal ball wallStart wallEnd).x
    (wallCollisionNormal ball wallStart wallEnd).y
    hw hp0 hp1 hperp hunit horsc hdist hcoll
  exact le_of_eq hcore.symm

/-- Witness for the amended C1: ball at (5,1) of radius 2 over the wall
from (0,0) to (10,0), true distance 1; after resolution the distance to
the wall is at least 2. -/
theorem C1_resolve_nonpenetration_amended_witness :
    (2 : ℝ) ≤ pointToLineSegmentDistance
      (handleWallCollision { position := ⟨5, 1⟩, velocity := ⟨0, 0⟩, radius := 2 }
        ⟨0, 0⟩ ⟨10, 0⟩ 1).position ⟨0, 0⟩ ⟨10, 0⟩ :=
  C1_resolve_nonpenetration_amended
    { position := ⟨5, 1⟩, velocity := ⟨0, 0⟩, radius := 2 } ⟨0, 0⟩ ⟨10, 0⟩ 1
    (by norm_num) (by norm_num) (by norm_num)
    (by
      dsimp only
      rw [ptsd_of_param_mid ⟨5, 1⟩ ⟨0, 0⟩ ⟨10, 0⟩ (by norm_num) (by norm_num)
        (by norm_num)]
      norm_num)
    (by norm_num)

theorem cornerBallNormal :
    wallCollisionNormal { position := ⟨-3, 4⟩, velocity := ⟨0, 0⟩, radius := 6 }
      ⟨0, 0⟩ ⟨10, 0⟩ = ⟨0, 1⟩ := by
  have hWmag : Vector.magnitude ⟨-((0:ℝ) - 0), (10:ℝ) - 0⟩ = 10 := by
    unfold Vector.magnitude
    dsimp only
    rw [show -((0:ℝ) - 0) * -((0:ℝ) - 0) + ((10:ℝ) - 0) * ((10:ℝ) - 0) = 10 ^ 2 by
      norm_num]
    exact Real.sqrt_sq (by norm_num)
  unfold wallCollisionNormal
  simp only [Vector.subtract, Vector.add, Vector.multiply, Vector.dot]
  rw [normalize_of_mag_ne ⟨-((0:ℝ) - 0), (10:ℝ) - 0⟩ (by rw [hWmag]; norm_num),
    hWmag]
  dsimp only
  rw [if_neg (by norm_num)]
  ext <;> dsimp only <;> norm_num

/-- Counterexample to C1 as stated: the ball at (-3,4) with radius 6
against the wall from (0,0) to (10,0) is at true segment distance 5 ≤ 6,
yet after handleWallCollision the distance to the segment is √34 < 6
(the push-out is perpendicular to the wall line, but the nearest segment
point is the endpoint (0,0)). -/
theorem C1_counterexample :
    pointToLineSegmentDistance ⟨-3, 4⟩ ⟨0, 0⟩ ⟨10, 0⟩ = 5 ∧
    (5 : ℝ) ≤ ({ position := ⟨-3, 4⟩, velocity := ⟨0, 0⟩, radius := 6 } : Ball).radius ∧
    pointToLineSegmentDistance
      (handleWallCollision { position := ⟨-3, 4⟩, velocity := ⟨0, 0⟩, radius := 6 }
        ⟨0, 0⟩ ⟨10, 0⟩ 5).position ⟨0, 0⟩ ⟨10, 0⟩ <
      ({ position := ⟨-3, 4⟩, velocity := ⟨0, 0⟩, radius := 6 } : Ball).radius := by
  refine ⟨?_, by norm_num, ?_⟩
  · rw [ptsd_of_dot_neg ⟨-3, 4⟩ ⟨0, 0⟩ ⟨10, 0⟩ (by norm_num) (by norm_num)]
    dsimp only
    rw [show (-3 - (0:ℝ)) * (-3 - (0:ℝ)) + ((4:ℝ) - 0) * ((4:ℝ) - 0) = 5 ^ 2 by norm_num]
    exact Real.sqrt_sq (by norm_num)
  · rw [handleWallCollision_position _ _ _ _ (by norm_num)]
    rw [cornerBallNormal]
    dsimp only
    have hpt : pointToLineSegmentDistance ⟨(-3 : ℝ) + 0 * (6 - 5), (4 : ℝ) + 1 * (6 - 5)⟩
        ⟨0, 0⟩ ⟨10, 0⟩ = Real.sqrt 34 := by
      rw [ptsd_of_dot_neg ⟨(-3 : ℝ) + 0 * (6 - 5), (4 : ℝ) + 1 * (6 - 5)⟩ ⟨0, 0⟩ ⟨10, 0⟩
        (by norm_num) (by norm_num)]
      norm_num
    rw [hpt]
    rw [Real.sqrt_lt' (by norm_num)]
    norm_num

theorem magnitude_normalize (v : Vector2D) (h : Vector.magnitude v ≠ 0) :
    Vector.magnitude (Vector.normalize v) = 1 := by
  have hu := normalize_unit v h
  unfold Vector.magnitude
  rw [hu]
  exact Real.sqrt_one

theorem checkHexagonCollision_true_of_edge (p : Vector2D) (r : ℝ) (c : Vector2D)
    (R rot : ℝ) (j : ℕ) (hj : j < 6)
    (h : edgeDist p ((getHexagonEdges
      (generateHexagonVertices c.x c.y R rot)).getD j dfltSeg) ≤ r) :
    (checkHexagonCollision p r c R rot).hasCollision = true := by
  obtain ⟨i, hi, hdist, -, -, -, hmin, hiff⟩ :=
    checkHexagonCollision_characterization p r c R rot
  exact hiff.mpr (le_trans (hmin j hj) h)

theorem vertex0_on_hexagon_edge (R : ℝ) (hR : 0 < R) :
    edgeDist ⟨R, 0⟩ ((getHexagonEdges
      (generateHexagonVertices 0 0 R 0)).getD 0 dfltSeg) = 0 := by
  have hs3 : Real.sqrt 3 * Real.sqrt 3 = 3 := Real.mul_self_sqrt (by norm_num)
  rw [hexVertices_eval, getHexagonEdges_six]
  simp only [List.getD_cons_zero]
  unfold edgeDist
  rw [ptsd_of_param_mid ⟨R, 0⟩ ⟨R, 0⟩ ⟨R / 2, R * (Real.sqrt 3 / 2)⟩
    (by dsimp only; intro hcontra; nlinarith [hs3])
    (by dsimp only; norm_num) (by dsimp only; nlinarith [hs3])]
  dsimp only
  norm_num

/-- C6 (amended): constrainBallInsideHexagon leaves a non-colliding point
(in the sense of the code's own test: minimum edge distance at most
ballRadius) unchanged; when the test reports a collision, the point is
not the center, and `hexRadius - ballRadius - 10` is nonnegative, the
result lies at distance `hexRadius - ballRadius - 10` from the center on
the ray from the center through the original point. Points outside the
hexagon but farther than ballRadius from every edge are NOT moved, and
for `hexRadius - ballRadius - 10 < 0` the result lands on the opposite
ray (see the counterexample). -/
theorem C6_constrainInside_amended (ballPos : Vector2D) (ballRadius : ℝ)
    (hexCenter : Vector2D) (hexRadius rotation : ℝ) (rand : Vector2D)
    (hne : ballPos ≠ hexCenter)
    (hsafe : 0 ≤ hexRadius - ballRadius - 10) :
    ((checkHexagonCollision ballPos ballRadius hexCenter hexRadius
        rotation).hasCollision = false →
      constrainBallInsideHexagon ballPos ballRadius hexCenter hexRadius rotation rand =
        ballPos) ∧
    ((checkHexagonCollision ballPos ballRadius hexCenter hexRadius
        rotation).hasCollision = true →
      Vector.magnitude (Vector.subtract
        (constrainBallInsideHexagon ballPos ballRadius hexCenter hexRadius rotation rand)
        hexCenter) = hexRadius - ballRadius - 10 ∧
      ∃ t : ℝ, 0 ≤ t ∧
        Vector.subtract
          (constrainBallInsideHexagon ballPos ballRadius hexCenter hexRadius rotation rand)
          hexCenter = Vector.multiply (Vector.subtract ballPos hexCenter) t) := by
  have hdirne : Vector.magnitude (Vector.subtract hexCenter ballPos) ≠ 0 := by
    rw [Ne, magnitude_eq_zero_iff]
    intro hz
    apply hne
    have hx := congrArg Vector2D.x hz
    have hy := congrArg Vector2D.y hz
    dsimp [Vector.subtract] at hx hy
    ext <;> linarith
  constructor
  · intro hfalse
    unfold constrainBallInsideHexagon
    rw [if_pos hfalse]
  · intro htrue
    unfold constrainBallInsideHexagon
    rw [if_neg (by rw [htrue]; simp), if_neg hdirne]
    constructor
    · have hsub : Vector.subtract
          (Vector.add hexCenter
            (Vector.multiply (Vector.normalize (Vector.subtract hexCenter ballPos))
              (-(hexRadius - ballRadius - 10)))) hexCenter =
          Vector.multiply (Vector.normalize (Vector.subtract hexCenter ballPos))
            (-(hexRadius - ballRadius - 10)) := by
        unfold Vector.subtract Vector.add Vector.multiply
        ext <;> dsimp only <;> ring
      rw [hsub, magnitude_multiply, magnitude_normalize _ hdirne, mul_one, abs_neg,
        abs_of_nonneg hsafe]
    · refine ⟨(hexRadius - ballRadius - 10) / Vector.magnitude
        (Vector.subtract hexCenter ballPos), ?_, ?_⟩
      · exact div_nonneg hsafe (magnitude_nonneg _)
      · rw [normalize_of_mag_ne _ hdirne]
        unfold Vector.subtract Vector.add Vector.multiply
        ext <;> dsimp only <;> field_simp <;> ring

theorem magnitude_eval (x y r : ℝ) (hr : 0 ≤ r) (h : x * x + y * y = r ^ 2) :
    Vector.magnitude ⟨x, y⟩ = r := by
  unfold Vector.magnitude
  dsimp only
  rw [h]
  exact Real.sqrt_sq hr

/-- Counterexample to C6 as stated: the point (5,0) is a vertex of the
hexagon of radius 5 (distance 0 to the wall, so it violates containment
and collides), is not the center, yet constrainBallInsideHexagon sends it
to (-6,0): at distance 6 from the center, not at the claimed distance
hexRadius - ballRadius - 10 = -6, and on the opposite ray. -/
theorem C6_counterexample :
    (checkHexagonCollision ⟨5, 0⟩ 1 ⟨0, 0⟩ 5 0).hasCollision = true ∧
    (⟨5, 0⟩ : Vector2D) ≠ ⟨0, 0⟩ ∧
    constrainBallInsideHexagon ⟨5, 0⟩ 1 ⟨0, 0⟩ 5 0 ⟨0, 0⟩ = ⟨-6, 0⟩ ∧
    Vector.magnitude (Vector.subtract
      (constrainBallInsideHexagon ⟨5, 0⟩ 1 ⟨0, 0⟩ 5 0 ⟨0, 0⟩) ⟨0, 0⟩) ≠
      5 - 1 - 10 := by
  have hcoll : (checkHexagonCollision ⟨5, 0⟩ 1 ⟨0, 0⟩ 5 0).hasCollision = true :=
    checkHexagonCollision_true_of_edge ⟨5, 0⟩ 1 ⟨0, 0⟩ 5 0 0 (by norm_num)
      (le_trans (le_of_eq (vertex0_on_hexagon_edge 5 (by norm_num))) (by norm_num))
  have hmag : Vector.magnitude ⟨(0 : ℝ) - 5, (0 : ℝ) - 0⟩ = 5 :=
    magnitude_eval _ _ 5 (by norm_num) (by norm_num)
  have heval : constrainBallInsideHexagon ⟨5, 0⟩ 1 ⟨0, 0⟩ 5 0 ⟨0, 0⟩ = ⟨-6, 0⟩ := by
    unfold constrainBallInsideHexagon
    rw [if_neg (by rw [hcoll]; simp)]
    simp only [Vector.subtract]
    rw [if_neg (by rw [hmag]; norm_num),
      normalize_of_mag_ne ⟨(0 : ℝ) - 5, (0 : ℝ) - 0⟩ (by rw [hmag]; norm_num), hmag]
    unfold Vector.add Vector.multiply
    ext <;> dsimp only <;> norm_num
  refine ⟨hcoll, ?_, heval, ?_⟩
  · intro h
    have hx := congrArg Vector2D.x h
    norm_num at hx
  · rw [heval]
    rw [show Vector.subtract ⟨-6, 0⟩ ⟨0, 0⟩ = ⟨(-6 : ℝ) - 0, (0 : ℝ) - 0⟩ from rfl,
      magnitude_eval _ _ 6 (by norm_num) (by norm_num)]
    norm_num

/-- Witness for the amended C6 at a concrete input: point (100,0), ball
radius 1, hexagon radius 100 centered at the origin. -/
theorem C6_constrainInside_amended_witness :
    ((checkHexagonCollision ⟨100, 0⟩ 1 ⟨0, 0⟩ 100 0).hasCollision = false →
      constrainBallInsideHexagon ⟨100, 0⟩ 1 ⟨0, 0⟩ 100 0 ⟨0, 0⟩ = ⟨100, 0⟩) ∧
    ((checkHexagonCollision ⟨100, 0⟩ 1 ⟨0, 0⟩ 100 0).hasCollision = true →
      Vector.magnitude (Vector.subtract
        (constrainBallInsideHexagon ⟨100, 0⟩ 1 ⟨0, 0⟩ 100 0 ⟨0, 0⟩) ⟨0, 0⟩) =
        100 - 1 - 10 ∧
      ∃ t : ℝ, 0 ≤ t ∧
        Vector.subtract (constrainBallInsideHexagon ⟨100, 0⟩ 1 ⟨0, 0⟩ 100 0 ⟨0, 0⟩)
          ⟨0, 0⟩ = Vector.multiply (Vector.subtract ⟨100, 0⟩ ⟨0, 0⟩) t) :=
  C6_constrainInside_amended ⟨100, 0⟩ 1 ⟨0, 0⟩ 100 0 ⟨0, 0⟩
    (by intro h; have hx := congrArg Vector2D.x h; norm_num at hx)
    (by norm_num)
